import Mathlib

/-!
Shallow embedding of the rmqtt cluster plugins
(rmqtt-cluster-raft, rmqtt-cluster-broadcast, rmqtt-web-hook) and proofs
about them.  Pure data flow is embedded as Lean functions; the async RPC
and channel effects are made explicit: peer replies and send results are
passed in as data, emitted RPC messages are returned as traces, panics and
checked-arithmetic overflow are modelled with `Option`.
-/

/-- MQTT topics and topic filters are modelled as strings. -/
abbrev Topic := String

/-- A retained message: `{ from, payload, qos, ts }` keyed by concrete topic. -/
structure Retain where
  client : String
  payload : List Nat
  qos : Nat
  ts : Nat
deriving DecidableEq

/-- Modelled from the spec: the grpc `MessageReply` tagged union of the rmqtt
core (the grpc layer is not under src/); each request variant has a matching
reply tag, and only the tags and the `GetRetains` payload matter here. -/
inductive MessageReply where
  | Forwards : MessageReply
  | Kick : MessageReply
  | GetRetains : List (Topic × Retain) → MessageReply
  | NumberOfClients : Nat → MessageReply
  | NumberOfSessions : Nat → MessageReply
  | Data : List Nat → MessageReply
deriving DecidableEq

/-- Modelled from the spec: the grpc `Message` (request) tagged union of the
rmqtt core; used to record which RPC messages an operation emits. -/
inductive GrpcMessage where
  | Forwards : GrpcMessage
  | Kick : GrpcMessage
  | GetRetains : Topic → GrpcMessage
  | NumberOfClients : GrpcMessage
  | NumberOfSessions : GrpcMessage
  | Data : List Nat → GrpcMessage
deriving DecidableEq

/-- The for-loop body of `ClusterRetainer::get`: an `Ok(GetRetains(vec))`
reply extends the accumulated retains, every other reply (other `Ok`
variants, and errors, which are only logged) leaves them unchanged. -/
def getStep (acc : List (Topic × Retain)) (reply : Except String MessageReply) :
    List (Topic × Retain) :=
  match reply with
  | .ok (MessageReply.GetRetains o_retains) => acc ++ o_retains
  | .ok _ => acc
  | .error _ => acc

/-- `ClusterRetainer::get` (rmqtt-cluster-broadcast/src/retainer.rs).
`localRes` is the result of `self.inner.get(topic_filter)` (the `?` operator
propagates its error before any broadcast); `replys` is the list of per-peer
results of the `MessageBroadcaster` scatter-gather.  Returns the retain list
together with the trace of RPC messages broadcast to peers. -/
def ClusterRetainer.get (topic_filter : Topic)
    (localRes : Except String (List (Topic × Retain)))
    (replys : List (Except String MessageReply)) :
    Except String (List (Topic × Retain)) × List GrpcMessage :=
  match localRes with
  | .error e => (.error e, [])
  | .ok retains => (.ok (replys.foldl getStep retains), [GrpcMessage.GetRetains topic_filter])

/-- The retained stores of the whole cluster, as seen from one node: the
local `DefaultRetainStorage` plus every peer node's store. -/
structure RetainerWorld (Store : Type) where
  localStore : Store
  peerStores : Nat → Store

/-- `ClusterRetainer::set` (rmqtt-cluster-broadcast/src/retainer.rs):
`self.inner.set(topic, retain).await` — a pure delegation to the local
store (`innerSet` abstracts `DefaultRetainStorage::set`), returning its
result; no RPC message is emitted. -/
def ClusterRetainer.set {Store : Type}
    (innerSet : Store → Topic → Retain → Store × Except String Unit)
    (w : RetainerWorld Store) (topic : Topic) (retain : Retain) :
    RetainerWorld Store × Except String Unit × List GrpcMessage :=
  let r := innerSet w.localStore topic retain
  ({ w with localStore := r.1 }, r.2, [])

/-- What the spec says `get` collects from peers: each `Ok(GetRetains(vec))`
reply contributes its `vec`, anything else contributes nothing. -/
def collectPeerRetains (replys : List (Except String MessageReply)) :
    List (Topic × Retain) :=
  (replys.filterMap (fun r =>
    match r with
    | .ok (MessageReply.GetRetains o_retains) => some o_retains
    | _ => none)).flatten

/-- Rust debug-build `usize` subtraction: `none` models the overflow panic. -/
def checkedSub (a b : Nat) : Option Nat :=
  if b ≤ a then some (a - b) else none

/-- The enumerate loop of `MessageBroadcaster::join_all`: builds one send
future per client, the client at `max_idx` receives the message by move and
the loop breaks, earlier clients receive clones.  `send` abstracts the
awaited `grpc_client.send_message(msg_type, msg)`. -/
def MessageBroadcaster.joinAllGo {Client Msg Reply : Type}
    (send : Client → Msg → Reply) (msg : Msg) (max_idx : Nat) :
    List Client → Nat → List Reply
  | [], _ => []
  | c :: rest, i =>
    if i = max_idx then [send c msg]
    else send c msg :: MessageBroadcaster.joinAllGo send msg max_idx rest (i + 1)

/-- `MessageBroadcaster::join_all` (rmqtt-cluster-raft/src/lib.rs):
`max_idx = self.grpc_clients.len() - 1` is a `usize` subtraction, so on an
empty client map it underflows (`none`); otherwise all per-peer send results
are collected in iteration order. -/
def MessageBroadcaster.join_all {Client Msg Reply : Type}
    (grpc_clients : List Client) (send : Client → Msg → Reply) (msg : Msg) :
    Option (List Reply) :=
  match checkedSub grpc_clients.length 1 with
  | none => none
  | some max_idx => some (MessageBroadcaster.joinAllGo send msg max_idx grpc_clients 0)

/-- The retry loop of `MessageSender::send` (rmqtt-cluster-raft/src/lib.rs).
`attempt n` abstracts the awaited result of the n-th
`self.client.send_message(self.msg_type, self.msg.clone())`; the sleep of
`retry_interval` between attempts has no observable value.  Besides the
final result it returns the list of attempt indices performed, in order. -/
def MessageSender.sendLoop {E R : Type} (attempt : Nat → Except E R)
    (max_retries : Nat) (current_retry : Nat) : Except E R × List Nat :=
  match attempt current_retry with
  | .ok reply => (.ok reply, [current_retry])
  | .error e =>
    if _h : current_retry < max_retries then
      let r := MessageSender.sendLoop attempt max_retries (current_retry + 1)
      (r.1, current_retry :: r.2)
    else
      (.error e, [current_retry])
termination_by max_retries + 1 - current_retry
decreasing_by omega

/-- `MessageSender::send`: the loop starting from `current_retry = 0`. -/
def MessageSender.send {E R : Type} (attempt : Nat → Except E R)
    (max_retries : Nat) : Except E R × List Nat :=
  MessageSender.sendLoop attempt max_retries 0

/-- The raft mailbox status; only `is_started` is inspected by the plugin. -/
structure RaftStatus where
  started : Bool
deriving DecidableEq

def RaftStatus.is_started (s : RaftStatus) : Bool := s.started

/-- The `for i in 0..10` polling loop of `ClusterPlugin::start`
(rmqtt-cluster-raft/src/lib.rs): each iteration awaits
`raft_mailbox.status()` (whose error propagates out of `start` through
`?`), breaks when `status.is_started()`, and otherwise sleeps 500 ms and
polls again; after the 10th poll the loop ends and `start` returns `Ok`.
`status i` abstracts the result of the i-th poll; the returned list records
the poll indices performed. -/
def ClusterPlugin.startLoop {E : Type} (status : Nat → Except E RaftStatus)
    (i : Nat) : Except E Unit × List Nat :=
  if _h : i < 10 then
    match status i with
    | .error e => (.error e, [i])
    | .ok s =>
      if s.is_started then (.ok (), [i])
      else
        let r := ClusterPlugin.startLoop status (i + 1)
        (r.1, i :: r.2)
  else (.ok (), [])
termination_by 10 - i
decreasing_by omega

/-- The mailbox-status polling performed by `ClusterPlugin::start`. -/
def ClusterPlugin.start_poll {E : Type} (status : Nat → Except E RaftStatus) :
    Except E Unit × List Nat :=
  ClusterPlugin.startLoop status 0

/-- The hook event types the plugins register handlers for. -/
inductive HookType where
  | SessionCreated
  | SessionTerminated
  | SessionSubscribed
  | SessionUnsubscribed
  | ClientConnect
  | ClientConnack
  | ClientConnected
  | ClientDisconnected
  | ClientSubscribe
  | ClientUnsubscribe
  | ClientAuthenticate
  | ClientSubscribeCheckAcl
  | MessagePublishCheckAcl
  | MessagePublish
  | MessageDelivered
  | MessageAcked
  | MessageDropped
  | GrpcMessageReceived
deriving DecidableEq

/-- JSON values, with objects as ordered key-value lists as in serde_json
index maps. -/
inductive Json where
  | str : String → Json
  | num : Int → Json
  | bool : Bool → Json
  | null : Json
  | arr : List Json → Json
  | obj : List (String × Json) → Json

/-- serde_json `Map::insert`: replaces the value of an existing key in
place, otherwise appends the new entry. -/
def insertKV : List (String × Json) → String → Json → List (String × Json)
  | [], k, v => [(k, v)]
  | kv :: rest, k, v =>
    if kv.1 = k then (k, v) :: rest else kv :: insertKV rest k v

/-- Key lookup in a JSON object. -/
def lookupKV : List (String × Json) → String → Option Json
  | [], _ => none
  | kv :: rest, k => if kv.1 = k then some kv.2 else lookupKV rest k

/-- The body annotation of `WebHookHandler::handle`:
`if let Some(obj) = new_body.as_object_mut() ... insert("action", action)` —
inserts the rule's action at the top level of an object, leaves any
non-object body unchanged. -/
def insertAction (body : Json) (action : String) : Json :=
  match body with
  | Json.obj kvs => Json.obj (insertKV kvs "action" (Json.str action))
  | other => other

/-- A bounded crossbeam channel, seen from the sender side. -/
structure BoundedChannel (α : Type) where
  capacity : Nat
  buf : List α

/-- crossbeam `Sender::try_send` on a bounded channel: non-blocking; on a
full buffer the message is rejected (`false`) and the channel unchanged. -/
def BoundedChannel.try_send {α : Type} (ch : BoundedChannel α) (a : α) :
    BoundedChannel α × Bool :=
  if ch.buf.length < ch.capacity then ({ ch with buf := ch.buf ++ [a] }, true)
  else (ch, false)

/-- The web-hook channel message: `Body(hook type, topic, json)` or `Exit`. -/
inductive WHMessage where
  | Body : HookType → Option Topic → Json → WHMessage
  | Exit : WHMessage

/-- One iteration of the submit loop in `WebHookHandler::hook`: offer the
body with `try_send`; a failure (full queue) is only logged, the message is
dropped and the channel left as is. -/
def offerBody (typ : HookType) (ch : BoundedChannel WHMessage)
    (tb : Option Topic × Json) : BoundedChannel WHMessage :=
  (ch.try_send (WHMessage.Body typ tb.1 tb.2)).1

/-- `WebHookHandler::hook` (rmqtt-plugins/rmqtt-web-hook/src/lib.rs), from
the point where the event has been rendered into `bodys`: each body is
offered to the bounded queue with `try_send`, and the handler returns
`(true, acc)` unconditionally. -/
def WebHookHandler.hook {R : Type} (tx : BoundedChannel WHMessage)
    (typ : HookType) (bodys : List (Option Topic × Json)) (acc : Option R) :
    BoundedChannel WHMessage × (Bool × Option R) :=
  let tx1 := if bodys.isEmpty then tx else bodys.foldl (offerBody typ) tx
  (tx1, (true, acc))

/-- A set of MQTT topic filters, as configured on a web-hook rule. -/
abbrev TopicFilterSet := List String

/-- A web-hook rule: `{ action, topics, urls }` (the reified regex paired
with the filter set in the source carries no extra information here). -/
structure Rule where
  action : String
  topics : Option TopicFilterSet
  urls : List String
deriving DecidableEq

/-- The `rules.iter().filter_map(..)` closure of `WebHookHandler::handle`:
decides `is_allowed` from the event topic and the rule topics (`im`
abstracts `TopicFilters::is_matches`), selects the rule's urls with
fallback to the global `http_urls`, and drops the rule when none remain. -/
def selectRule (im : TopicFilterSet → Topic → Bool) (default_urls : List String)
    (topic : Option Topic) (r : Rule) : Option (String × List String) :=
  let is_allowed :=
    match topic with
    | some t =>
      match r.topics with
      | some rule_topics => im rule_topics t
      | none => true
    | none => true
  if is_allowed then
    let urls := if r.urls.isEmpty then default_urls else r.urls
    if urls.isEmpty then none else some (r.action, urls)
  else none

/-- `WebHookHandler::handle`: for a `Body(typ, topic, body)` event, `rules`
is `cfg.rules.get(&typ)` and `default_urls` is `cfg.http_urls`.  Returns
the list of HTTP POST requests issued, as (url, json body) pairs; the
single-url branch moves the annotated body, the multi-url branch clones it
per url, producing one request per selected url either way. -/
def WebHookHandler.handle (im : TopicFilterSet → Topic → Bool)
    (rules : Option (List Rule)) (default_urls : List String)
    (topic : Option Topic) (body : Json) : List (String × Json) :=
  match rules with
  | none => []
  | some rs =>
    (rs.filterMap (selectRule im default_urls topic)).foldl
      (fun acc au => acc ++ au.2.map (fun url => (url, insertAction body au.1)))
      []

/-- The spec's rule-match condition: a rule matches iff it has no topics
set, or the event carries no topic, or the event topic matches the rule
filters. -/
def ruleMatches (im : TopicFilterSet → Topic → Bool) (topic : Option Topic)
    (r : Rule) : Bool :=
  r.topics.isNone || topic.isNone ||
    (match topic, r.topics with
     | some t, some rule_topics => im rule_topics t
     | _, _ => true)

/-- The spec's target urls of a rule: its own urls, falling back to the
global `http_urls` when empty. -/
def ruleTargetUrls (default_urls : List String) (r : Rule) : List String :=
  if r.urls.isEmpty then default_urls else r.urls

/-- The claim's description of the fan-out, written from the spec's words:
take the rules registered for the type, keep the matching ones, and issue
one POST per target url with the action-annotated body. -/
def WebHookHandler.handleSpec (im : TopicFilterSet → Topic → Bool)
    (rules : Option (List Rule)) (default_urls : List String)
    (topic : Option Topic) (body : Json) : List (String × Json) :=
  match rules with
  | none => []
  | some rs =>
    ((rs.filter (ruleMatches im topic)).map (fun r =>
      (ruleTargetUrls default_urls r).map
        (fun url => (url, insertAction body r.action)))).flatten

/-- The web-hook plugin configuration fields used by `load_config`. -/
structure WebHookPluginConfig where
  worker_threads : Nat
  async_queue_capacity : Nat
  http_timeout : Nat
  http_urls : List String
deriving DecidableEq

/-- The reload condition of `WebHookPlugin::load_config`: the worker
executor and channel are rebuilt only when these two fields changed. -/
def configChanged (cfg new_cfg : WebHookPluginConfig) : Bool :=
  cfg.worker_threads != new_cfg.worker_threads ||
    cfg.async_queue_capacity != new_cfg.async_queue_capacity

/-- The mutable state of `WebHookPlugin` touched by `load_config`: the
config and the sender handle (channels identified by a number). -/
structure WebHookPluginState where
  cfg : WebHookPluginConfig
  tx : Nat
deriving DecidableEq

/-- `WebHookPlugin::load_config` (rmqtt-plugins/rmqtt-web-hook/src/lib.rs).
`new_tx` is the sender of the freshly started executor (created before the
old one is told to exit) and `send_exit_old` the result of
`send_timeout(Exit, 3 s)` on the old channel.  On a changed config with a
failed Exit send, the error is surfaced and neither field is swapped; on
success both are; on an unchanged condition only the config is replaced. -/
def WebHookPlugin.load_config (st : WebHookPluginState)
    (new_cfg : WebHookPluginConfig) (new_tx : Nat)
    (send_exit_old : Except String Unit) : WebHookPluginState × Option String :=
  if configChanged st.cfg new_cfg then
    match send_exit_old with
    | .error e => (st, some e)
    | .ok _ => ({ cfg := new_cfg, tx := new_tx }, none)
  else
    ({ st with cfg := new_cfg }, none)

/-- A raft mailbox handle (clone-safe; identity is all that matters here). -/
structure Mailbox where
  id : Nat
deriving DecidableEq

/-- The `ClusterPlugin` state relevant to `raft_mailbox()`: the nullable
mailbox field. -/
structure ClusterPluginState where
  raft_mailbox : Option Mailbox
deriving DecidableEq

/-- `ClusterPlugin::new` leaves `raft_mailbox` as `None` (the commented-out
construction in `new` was moved to `init`). -/
def ClusterPlugin.new_state : ClusterPluginState := { raft_mailbox := none }

/-- `ClusterPlugin::raft_mailbox`: clones the mailbox out of the field,
hitting `unreachable!()` — modelled as `none` — while the field is `None`. -/
def ClusterPlugin.raft_mailbox_get (st : ClusterPluginState) : Option Mailbox :=
  match st.raft_mailbox with
  | some raft_mailbox => some raft_mailbox
  | none => none

/-- The part of `ClusterPlugin::init` that stores the mailbox obtained from
`start_raft` into the field (`self.raft_mailbox.replace(raft_mailbox)`). -/
def ClusterPlugin.init (st : ClusterPluginState) (mailbox : Mailbox) :
    ClusterPluginState :=
  { st with raft_mailbox := some mailbox }

theorem getStep_collect (replys : List (Except String MessageReply)) :
    ∀ l, replys.foldl getStep l = l ++ collectPeerRetains replys := by
  induction replys with
  | nil => intro l; simp [collectPeerRetains]
  | cons r rest ih =>
    intro l
    cases r with
    | error e => simp [List.foldl_cons, getStep, collectPeerRetains] at ih ⊢; exact ih l
    | ok v =>
      cases v with
      | GetRetains o =>
        simp only [List.foldl_cons, getStep, collectPeerRetains, List.filterMap_cons,
          List.flatten_cons] at ih ⊢
        rw [ih]
        simp [List.append_assoc]
      | Forwards => simp [List.foldl_cons, getStep, collectPeerRetains] at ih ⊢; exact ih l
      | Kick => simp [List.foldl_cons, getStep, collectPeerRetains] at ih ⊢; exact ih l
      | NumberOfClients n =>
        simp [List.foldl_cons, getStep, collectPeerRetains] at ih ⊢; exact ih l
      | NumberOfSessions n =>
        simp [List.foldl_cons, getStep, collectPeerRetains] at ih ⊢; exact ih l
      | Data d => simp [List.foldl_cons, getStep, collectPeerRetains] at ih ⊢; exact ih l

/-- Claim C1: for every topic filter, when the local store succeeds with
`retains`, `ClusterRetainer::get` returns `Ok` of `retains` extended, for
each peer reply that is `Ok(GetRetains(vec))`, by that `vec`; error replies
and successful replies of other variants contribute nothing and never cause
`get` to return an error (it also issues exactly the one
`GetRetains(filter)` broadcast). -/
theorem cluster_retainer_get_partial_failure (topic_filter : Topic)
    (retains : List (Topic × Retain)) (replys : List (Except String MessageReply)) :
    ClusterRetainer.get topic_filter (.ok retains) replys =
      (.ok (retains ++ collectPeerRetains replys), [GrpcMessage.GetRetains topic_filter]) := by
  simp [ClusterRetainer.get, getStep_collect]

/-- Claim C8: `ClusterRetainer::set` only delegates to the local
`DefaultRetainStorage::set` and returns its result: the peer stores are
untouched and no RPC message (in particular no broadcast) is emitted. -/
theorem cluster_retainer_set_local_only {Store : Type}
    (innerSet : Store → Topic → Retain → Store × Except String Unit)
    (w : RetainerWorld Store) (topic : Topic) (retain : Retain) :
    (ClusterRetainer.set innerSet w topic retain).1.peerStores = w.peerStores ∧
    (ClusterRetainer.set innerSet w topic retain).1.localStore =
      (innerSet w.localStore topic retain).1 ∧
    (ClusterRetainer.set innerSet w topic retain).2.1 =
      (innerSet w.localStore topic retain).2 ∧
    (ClusterRetainer.set innerSet w topic retain).2.2 = [] := by
  exact ⟨rfl, rfl, rfl, rfl⟩

theorem joinAllGo_map {Client Msg Reply : Type}
    (send : Client → Msg → Reply) (msg : Msg) (max_idx : Nat) :
    ∀ (cs : List Client) (i : Nat), i + cs.length = max_idx + 1 →
      MessageBroadcaster.joinAllGo send msg max_idx cs i =
        cs.map (fun c => send c msg) := by
  intro cs
  induction cs with
  | nil => intro i _; rfl
  | cons c rest ih =>
    intro i hlen
    by_cases h : i = max_idx
    · have hrest : rest.length = 0 := by
        simp only [List.length_cons] at hlen; omega
      have : rest = [] := List.length_eq_zero.mp hrest
      subst this
      simp [MessageBroadcaster.joinAllGo, h]
    · have hih : (i + 1) + rest.length = max_idx + 1 := by
        simp only [List.length_cons] at hlen
        rcases Nat.lt_or_ge i max_idx with hlt | hge
        · omega
        · exfalso; omega
      simp [MessageBroadcaster.joinAllGo, h, ih (i + 1) hih]

/-- Claim C2: for every non-empty client list, `MessageBroadcaster::join_all`
returns (without panicking) a result list of exactly the clients' length
whose i-th entry is the result of sending the message to the i-th client in
iteration order; each entry is the peer's own `Result`, so errors from any
subset of peers leave the other entries unchanged. -/
theorem join_all_aligned {Client Msg E R : Type} (clients : List Client)
    (send : Client → Msg → Except E R) (msg : Msg) (h : clients ≠ []) :
    MessageBroadcaster.join_all clients send msg =
      some (clients.map (fun c => send c msg)) ∧
    (clients.map (fun c => send c msg)).length = clients.length ∧
    ∀ i (hi : i < clients.length),
      (clients.map (fun c => send c msg))[i]? =
        some (send (clients.get ⟨i, hi⟩) msg) := by
  have hlen : 1 ≤ clients.length := by
    cases clients with
    | nil => exact absurd rfl h
    | cons a l => simp
  refine ⟨?_, by simp, ?_⟩
  · have hsub : checkedSub clients.length 1 = some (clients.length - 1) := by
      simp [checkedSub, hlen]
    simp only [MessageBroadcaster.join_all, hsub]
    rw [joinAllGo_map send msg (clients.length - 1) clients 0 (by omega)]
  · intro i hi
    simp [List.getElem?_eq_getElem, hi]

/-- Witness for Claim C2 at two concrete clients, one failing. -/
theorem join_all_aligned_witness :
    MessageBroadcaster.join_all [0, 1]
        (fun (c : Nat) (_ : Unit) =>
          if c = 0 then (Except.error 9 : Except Nat Nat) else Except.ok c) () =
      some ([0, 1].map (fun c =>
        if c = 0 then (Except.error 9 : Except Nat Nat) else Except.ok c)) :=
  (join_all_aligned [0, 1]
    (fun (c : Nat) (_ : Unit) =>
      if c = 0 then (Except.error 9 : Except Nat Nat) else Except.ok c) ()
    (by decide)).1

/-- Claim C10: `join_all` is panic-free exactly on non-empty client maps:
with zero clients the `len() - 1` checked subtraction underflows (`none`,
the panic), and with at least one client it returns a result list. -/
theorem join_all_nonempty_safe {Client Msg E R : Type}
    (send : Client → Msg → Except E R) (msg : Msg) :
    MessageBroadcaster.join_all ([] : List Client) send msg = none ∧
    ∀ clients : List Client, clients ≠ [] →
      (MessageBroadcaster.join_all clients send msg).isSome = true := by
  constructor
  · simp [MessageBroadcaster.join_all, checkedSub]
  · intro clients hne
    have hlen : 1 ≤ clients.length := by
      cases clients with
      | nil => exact absurd rfl hne
      | cons a l => simp
    simp [MessageBroadcaster.join_all, checkedSub, hlen]

/-- Witness for Claim C10: the underflow at zero peers and safety at one. -/
theorem join_all_nonempty_safe_witness :
    MessageBroadcaster.join_all ([] : List Nat)
        (fun (c : Nat) (_ : Unit) => (Except.ok c : Except Unit Nat)) () = none ∧
    (MessageBroadcaster.join_all [5]
        (fun (c : Nat) (_ : Unit) => (Except.ok c : Except Unit Nat)) ()).isSome = true :=
  ⟨(join_all_nonempty_safe (fun (c : Nat) (_ : Unit) => (Except.ok c : Except Unit Nat)) ()).1,
   (join_all_nonempty_safe (fun (c : Nat) (_ : Unit) => (Except.ok c : Except Unit Nat)) ()).2
     [5] (by decide)⟩

theorem sendLoop_all_fail {E R : Type} (attempt : Nat → Except E R)
    (errf : Nat → E) (m : Nat) :
    ∀ n c, n = m + 1 - c → c ≤ m →
      (∀ i, c ≤ i → i ≤ m → attempt i = .error (errf i)) →
      MessageSender.sendLoop attempt m c = (.error (errf m), List.range' c n) := by
  intro n
  induction n with
  | zero => intro c hn hc _; omega
  | succ n ih =>
    intro c hn hc hfail
    have hac : attempt c = .error (errf c) := hfail c le_rfl hc
    rw [MessageSender.sendLoop, hac]
    by_cases hcm : c < m
    · have hrec := ih (c + 1) (by omega) (by omega)
        (fun i hi him => hfail i (by omega) him)
      simp only [hcm, dite_true, hrec]
      rfl
    · have hceq : c = m := by omega
      have hn0 : n = 0 := by omega
      subst hceq hn0
      simp

theorem sendLoop_first_success {E R : Type} (attempt : Nat → Except E R)
    (m k : Nat) (r : R) :
    ∀ n c, n = k - c → c ≤ k → k ≤ m → attempt k = .ok r →
      (∀ i, c ≤ i → i < k → ∃ e, attempt i = .error e) →
      MessageSender.sendLoop attempt m c = (.ok r, List.range' c (n + 1)) := by
  intro n
  induction n with
  | zero =>
    intro c hn hck _ hk _
    have hceq : c = k := by omega
    subst hceq
    rw [MessageSender.sendLoop, hk]
    rfl
  | succ n ih =>
    intro c hn hck hkm hk hfail
    have hclt : c < k := by omega
    obtain ⟨e, he⟩ := hfail c le_rfl hclt
    rw [MessageSender.sendLoop, he]
    have hcm : c < m := by omega
    have hrec := ih (c + 1) (by omega) (by omega) hkm hk
      (fun i hi hik => hfail i (by omega) hik)
    simp only [hcm, dite_true, hrec]
    rfl

/-- Claim C4: for every `max_retries` (the `retry_interval` sleep has no
observable value), `MessageSender::send` performs exactly `1 + max_retries`
attempts — the indices `0 .. max_retries` — when every attempt fails,
returning the last error; and it stops at the first success, returning that
reply after exactly `k + 1` attempts when attempt `k` is the first to
succeed (one attempt when the first succeeds). -/
theorem message_sender_send_retry {E R : Type} (attempt : Nat → Except E R)
    (max_retries : Nat) :
    (∀ errf : Nat → E,
      (∀ i, i ≤ max_retries → attempt i = .error (errf i)) →
      MessageSender.send attempt max_retries =
        (.error (errf max_retries), List.range (max_retries + 1))) ∧
    (∀ (k : Nat) (r : R), k ≤ max_retries → attempt k = .ok r →
      (∀ i, i < k → ∃ e, attempt i = .error e) →
      MessageSender.send attempt max_retries = (.ok r, List.range (k + 1))) := by
  constructor
  · intro errf hfail
    rw [MessageSender.send, List.range_eq_range']
    exact sendLoop_all_fail attempt errf max_retries (max_retries + 1) 0 (by omega)
      (Nat.zero_le _) (fun i _ him => hfail i him)
  · intro k r hk hok hfail
    rw [MessageSender.send, List.range_eq_range']
    exact sendLoop_first_success attempt max_retries k r k 0 (by omega)
      (Nat.zero_le _) hk hok (fun i _ hik => hfail i hik)

/-- Witness for Claim C4: 3 attempts at `max_retries = 2` under persistent
failure, and a single attempt when the first attempt succeeds. -/
theorem message_sender_send_retry_witness :
    MessageSender.send (fun _ => (Except.error 0 : Except Nat Nat)) 2 =
      (Except.error 0, List.range 3) ∧
    MessageSender.send (fun _ => (Except.ok 7 : Except Nat Nat)) 2 =
      (Except.ok 7, List.range 1) :=
  ⟨(message_sender_send_retry (fun _ => (Except.error 0 : Except Nat Nat)) 2).1
      (fun _ => 0) (fun _ _ => rfl),
   (message_sender_send_retry (fun _ => (Except.ok 7 : Except Nat Nat)) 2).2
      0 7 (by decide) rfl (fun i hi => absurd hi (Nat.not_lt_zero i))⟩

theorem startLoop_length {E : Type} (status : Nat → Except E RaftStatus) :
    ∀ n i, 10 - i ≤ n → (ClusterPlugin.startLoop status i).2.length ≤ 10 - i := by
  intro n
  induction n with
  | zero =>
    intro i hi
    have h10 : ¬ i < 10 := by omega
    rw [ClusterPlugin.startLoop]
    simp [h10]
  | succ n ih =>
    intro i hi
    by_cases h10 : i < 10
    · rw [ClusterPlugin.startLoop]
      simp only [h10, dite_true]
      cases hs : status i with
      | error e => simp; omega
      | ok s =>
        by_cases hst : s.is_started
        · simp [hst]; omega
        · have hrec := ih (i + 1) (by omega)
          simp only [hst, if_false, Bool.false_eq_true]
          simp only [List.length_cons]
          omega
    · rw [ClusterPlugin.startLoop]
      simp [h10]

theorem startLoop_stops_on_started {E : Type} (status : Nat → Except E RaftStatus)
    (k : Nat) (s : RaftStatus) :
    ∀ n c, n = k - c → c ≤ k → k < 10 →
      (∀ i, c ≤ i → i < k → ∃ si, status i = .ok si ∧ si.is_started = false) →
      status k = .ok s → s.is_started = true →
      ClusterPlugin.startLoop status c = (.ok (), List.range' c (n + 1)) := by
  intro n
  induction n with
  | zero =>
    intro c hn hck hk10 _ hk hst
    have hceq : c = k := by omega
    subst hceq
    rw [ClusterPlugin.startLoop]
    simp [hk10, hk, hst]
  | succ n ih =>
    intro c hn hck hk10 hnot hk hst
    have hclt : c < k := by omega
    obtain ⟨si, hsi, hsistart⟩ := hnot c le_rfl hclt
    rw [ClusterPlugin.startLoop]
    have hc10 : c < 10 := by omega
    have hrec := ih (c + 1) (by omega) (by omega) hk10
      (fun i hi hik => hnot i (by omega) hik) hk hst
    simp only [hc10, dite_true, hsi, hsistart, if_false, Bool.false_eq_true, hrec]
    rfl

theorem startLoop_never_started {E : Type} (status : Nat → Except E RaftStatus) :
    ∀ n c, n = 10 - c →
      (∀ i, c ≤ i → i < 10 → ∃ si, status i = .ok si ∧ si.is_started = false) →
      ClusterPlugin.startLoop status c = (.ok (), List.range' c n) := by
  intro n
  induction n with
  | zero =>
    intro c hn _
    have h10 : ¬ c < 10 := by omega
    rw [ClusterPlugin.startLoop]
    simp [h10]
  | succ n ih =>
    intro c hn hnot
    have hc10 : c < 10 := by omega
    obtain ⟨si, hsi, hsistart⟩ := hnot c le_rfl hc10
    rw [ClusterPlugin.startLoop]
    have hrec := ih (c + 1) (by omega) (fun i hi hik => hnot i (by omega) hik)
    simp only [hc10, dite_true, hsi, hsistart, if_false, Bool.false_eq_true, hrec]
    rfl

/-- Claim C7: during `ClusterPlugin::start` the raft mailbox status is
polled at most 10 times (the 500 ms sleeps have no observable value);
polling stops as soon as a poll reports `is_started()`, and when no poll
within the 10 reports started (each poll itself succeeding), `start` still
returns `Ok` — degraded mode — instead of an error. -/
theorem cluster_start_poll_spec {E : Type} (status : Nat → Except E RaftStatus) :
    (ClusterPlugin.start_poll status).2.length ≤ 10 ∧
    (∀ k s, k < 10 →
      (∀ i, i < k → ∃ si, status i = .ok si ∧ si.is_started = false) →
      status k = .ok s → s.is_started = true →
      ClusterPlugin.start_poll status = (.ok (), List.range (k + 1))) ∧
    ((∀ i, i < 10 → ∃ si, status i = .ok si ∧ si.is_started = false) →
      ClusterPlugin.start_poll status = (.ok (), List.range 10)) := by
  refine ⟨?_, ?_, ?_⟩
  · exact startLoop_length status 10 0 (by omega)
  · intro k s hk10 hnot hk hst
    rw [ClusterPlugin.start_poll, List.range_eq_range']
    exact startLoop_stops_on_started status k s k 0 (by omega) (Nat.zero_le _)
      hk10 (fun i _ hik => hnot i hik) hk hst
  · intro hnot
    rw [ClusterPlugin.start_poll, List.range_eq_range']
    exact startLoop_never_started status 10 0 (by omega)
      (fun i _ hik => hnot i hik)

/-- Witness for Claim C7: a status that starts at the third poll stops the
loop there, and a status that never starts still yields `Ok` after 10. -/
theorem cluster_start_poll_spec_witness :
    ClusterPlugin.start_poll
        (fun i => (Except.ok ⟨decide (2 ≤ i)⟩ : Except Unit RaftStatus)) =
      (Except.ok (), List.range 3) ∧
    ClusterPlugin.start_poll
        (fun _ => (Except.ok ⟨false⟩ : Except Unit RaftStatus)) =
      (Except.ok (), List.range 10) :=
  ⟨(cluster_start_poll_spec
      (fun i => (Except.ok ⟨decide (2 ≤ i)⟩ : Except Unit RaftStatus))).2.1
      2 ⟨true⟩ (by decide)
      (fun i hi => ⟨⟨decide (2 ≤ i)⟩, rfl, by simp [RaftStatus.is_started]; omega⟩)
      rfl rfl,
   (cluster_start_poll_spec
      (fun _ => (Except.ok ⟨false⟩ : Except Unit RaftStatus))).2.2
      (fun i _ => ⟨⟨false⟩, rfl, rfl⟩)⟩

theorem try_send_capacity {α : Type} (ch : BoundedChannel α) (a : α) :
    (ch.try_send a).1.capacity = ch.capacity := by
  unfold BoundedChannel.try_send
  split <;> rfl

theorem try_send_le {α : Type} (ch : BoundedChannel α) (a : α)
    (h : ch.buf.length ≤ ch.capacity) :
    (ch.try_send a).1.buf.length ≤ ch.capacity := by
  unfold BoundedChannel.try_send
  split
  · next hlt => simp only [List.length_append, List.length_cons, List.length_nil]; omega
  · exact h

theorem try_send_full {α : Type} (ch : BoundedChannel α) (a : α)
    (h : ch.capacity ≤ ch.buf.length) :
    ch.try_send a = (ch, false) := by
  unfold BoundedChannel.try_send
  have hnlt : ¬ ch.buf.length < ch.capacity := by omega
  simp [hnlt]

theorem foldl_offer_le (typ : HookType) :
    ∀ (l : List (Option Topic × Json)) (ch : BoundedChannel WHMessage),
      ch.buf.length ≤ ch.capacity →
      (l.foldl (offerBody typ) ch).buf.length ≤ ch.capacity ∧
      (l.foldl (offerBody typ) ch).capacity = ch.capacity := by
  intro l
  induction l with
  | nil => intro ch h; exact ⟨h, rfl⟩
  | cons tb rest ih =>
    intro ch h
    have h2 : (offerBody typ ch tb).capacity = ch.capacity :=
      try_send_capacity ch _
    have h1 : (offerBody typ ch tb).buf.length ≤ (offerBody typ ch tb).capacity := by
      rw [h2]; exact try_send_le ch _ h
    obtain ⟨ha, hb⟩ := ih (offerBody typ ch tb) h1
    simp only [List.foldl_cons]
    exact ⟨by rw [← h2]; exact ha, by rw [hb]; exact h2⟩

theorem foldl_offer_full (typ : HookType) :
    ∀ (l : List (Option Topic × Json)) (ch : BoundedChannel WHMessage),
      ch.capacity ≤ ch.buf.length → l.foldl (offerBody typ) ch = ch := by
  intro l
  induction l with
  | nil => intro ch _; rfl
  | cons tb rest ih =>
    intro ch h
    have hstep : offerBody typ ch tb = ch := by
      unfold offerBody
      rw [try_send_full ch _ h]
    simp only [List.foldl_cons, hstep]
    exact ih ch h

theorem hook_fst {R : Type} (tx : BoundedChannel WHMessage) (typ : HookType)
    (bodys : List (Option Topic × Json)) (acc : Option R) :
    (WebHookHandler.hook tx typ bodys acc).1 = bodys.foldl (offerBody typ) tx := by
  unfold WebHookHandler.hook
  by_cases hb : bodys.isEmpty
  · have hnil : bodys = [] := List.isEmpty_iff.mp hb
    subst hnil
    rfl
  · simp [hb]

/-- Claim C3: submitting an event to the web-hook dispatcher never blocks
the hook thread: each rendered body is offered to the bounded queue with a
non-blocking `try_send` that never grows the queue past its capacity; when
the queue is full every offer is rejected and the message dropped (the
queue is unchanged); and in every case the handler returns `(true, acc)`
with the accumulator passed through unchanged. -/
theorem webhook_hook_nonblocking {R : Type} (tx : BoundedChannel WHMessage)
    (typ : HookType) (bodys : List (Option Topic × Json)) (acc : Option R) :
    (WebHookHandler.hook tx typ bodys acc).2 = (true, acc) ∧
    (tx.buf.length ≤ tx.capacity →
      (WebHookHandler.hook tx typ bodys acc).1.buf.length ≤ tx.capacity) ∧
    (tx.capacity ≤ tx.buf.length → (WebHookHandler.hook tx typ bodys acc).1 = tx) ∧
    (∀ m : WHMessage, tx.capacity ≤ tx.buf.length → tx.try_send m = (tx, false)) := by
  refine ⟨rfl, ?_, ?_, ?_⟩
  · intro h
    rw [hook_fst]
    exact (foldl_offer_le typ bodys tx h).1
  · intro h
    rw [hook_fst]
    exact foldl_offer_full typ bodys tx h
  · intro m h
    exact try_send_full tx m h

/-- Witness for Claim C3 on a full queue of capacity 1. -/
theorem webhook_hook_nonblocking_witness :
    (WebHookHandler.hook ⟨1, [WHMessage.Exit]⟩ HookType.MessagePublish
        [(none, Json.null)] (some 5)).2 = (true, some 5) ∧
    (WebHookHandler.hook ⟨1, [WHMessage.Exit]⟩ HookType.MessagePublish
        [(none, Json.null)] (some 5)).1.buf.length ≤ 1 ∧
    (WebHookHandler.hook ⟨1, [WHMessage.Exit]⟩ HookType.MessagePublish
        [(none, Json.null)] (some 5)).1 = ⟨1, [WHMessage.Exit]⟩ ∧
    BoundedChannel.try_send ⟨1, [WHMessage.Exit]⟩ WHMessage.Exit =
      (⟨1, [WHMessage.Exit]⟩, false) := by
  have h := webhook_hook_nonblocking (R := Nat) ⟨1, [WHMessage.Exit]⟩
    HookType.MessagePublish [(none, Json.null)] (some 5)
  exact ⟨h.1, h.2.1 (by decide), h.2.2.1 (by decide), h.2.2.2 WHMessage.Exit (by decide)⟩

theorem lookupKV_insertKV (kvs : List (String × Json)) (k : String) (v : Json) :
    lookupKV (insertKV kvs k v) k = some v := by
  induction kvs with
  | nil => simp [insertKV, lookupKV]
  | cons kv rest ih =>
    by_cases h : kv.1 = k
    · simp [insertKV, lookupKV, h]
    · simp [insertKV, lookupKV, h, ih]

theorem handle_foldl (body : Json) :
    ∀ (l : List (String × List String)) (init : List (String × Json)),
      l.foldl (fun acc au => acc ++ au.2.map (fun url => (url, insertAction body au.1)))
          init =
        init ++ (l.map (fun au =>
          au.2.map (fun url => (url, insertAction body au.1)))).flatten := by
  intro l
  induction l with
  | nil => intro init; simp
  | cons au rest ih =>
    intro init
    simp only [List.foldl_cons, List.map_cons, List.flatten_cons, ih,
      List.append_assoc]

theorem selectRule_eq (im : TopicFilterSet → Topic → Bool)
    (default_urls : List String) (topic : Option Topic) (r : Rule) :
    selectRule im default_urls topic r =
      if ruleMatches im topic r then
        (if (ruleTargetUrls default_urls r).isEmpty then none
         else some (r.action, ruleTargetUrls default_urls r))
      else none := by
  cases topic with
  | none => simp [selectRule, ruleMatches, ruleTargetUrls]
  | some t =>
    cases hrt : r.topics with
    | none => simp [selectRule, ruleMatches, ruleTargetUrls, hrt]
    | some rts =>
      by_cases him : im rts t
      · simp [selectRule, ruleMatches, ruleTargetUrls, hrt, him]
      · simp [selectRule, ruleMatches, ruleTargetUrls, hrt, him]

theorem filterMap_select_flatten (im : TopicFilterSet → Topic → Bool)
    (default_urls : List String) (topic : Option Topic) (body : Json) :
    ∀ rs : List Rule,
      ((rs.filterMap (selectRule im default_urls topic)).map (fun au =>
        au.2.map (fun url => (url, insertAction body au.1)))).flatten =
      ((rs.filter (ruleMatches im topic)).map (fun r =>
        (ruleTargetUrls default_urls r).map
          (fun url => (url, insertAction body r.action)))).flatten := by
  intro rs
  induction rs with
  | nil => rfl
  | cons r rest ih =>
    rw [List.filterMap_cons, List.filter_cons, selectRule_eq]
    by_cases hm : ruleMatches im topic r
    · by_cases hu : (ruleTargetUrls default_urls r).isEmpty
      · have hnil : ruleTargetUrls default_urls r = [] := List.isEmpty_iff.mp hu
        simp [hm, hu, hnil, ih]
      · simp [hm, hu, ih]
    · simp [hm, ih]

/-- Claim C5: for a `Body(typ, topic, body)` event the worker considers only
the rules registered for `typ` (`rules = cfg.rules.get(typ)`); a rule
matches iff it has no topics set, or the event carries no topic, or the
event topic matches the rule filters; a matching rule's targets are its own
urls with fallback to the global `http_urls`, and the rule is skipped when
both are empty; and exactly one POST per selected url is issued whose body
is the event body with the top-level `action` field set to the rule's
action (for object bodies the inserted field reads back as the action). -/
theorem webhook_handle_matches_spec (im : TopicFilterSet → Topic → Bool)
    (rules : Option (List Rule)) (default_urls : List String)
    (topic : Option Topic) (body : Json) :
    WebHookHandler.handle im rules default_urls topic body =
      WebHookHandler.handleSpec im rules default_urls topic body ∧
    ∀ (kvs : List (String × Json)) (action : String),
      insertAction (Json.obj kvs) action =
        Json.obj (insertKV kvs "action" (Json.str action)) ∧
      lookupKV (insertKV kvs "action" (Json.str action)) "action" =
        some (Json.str action) := by
  constructor
  · cases rules with
    | none => rfl
    | some rs =>
      unfold WebHookHandler.handle WebHookHandler.handleSpec
      dsimp only
      rw [handle_foldl body (rs.filterMap (selectRule im default_urls topic)) []]
      simp only [List.nil_append]
      exact filterMap_select_flatten im default_urls topic body rs
  · intro kvs action
    exact ⟨rfl, lookupKV_insertKV kvs "action" (Json.str action)⟩

/-- Claim C6: `load_config` rebuilds the executor and swaps the channel only
when `worker_threads` or `async_queue_capacity` changed; in that case a
failed `Exit` send on the old channel surfaces the error and swaps neither
the sender handle nor the config, a successful one installs the new config
and channel; an unchanged condition replaces only the config and keeps the
sender handle. -/
theorem webhook_load_config_spec (st : WebHookPluginState)
    (new_cfg : WebHookPluginConfig) (new_tx : Nat)
    (send_exit_old : Except String Unit) :
    (∀ e, configChanged st.cfg new_cfg = true → send_exit_old = .error e →
      WebHookPlugin.load_config st new_cfg new_tx send_exit_old = (st, some e)) ∧
    (configChanged st.cfg new_cfg = true → send_exit_old = .ok () →
      WebHookPlugin.load_config st new_cfg new_tx send_exit_old =
        ({ cfg := new_cfg, tx := new_tx }, none)) ∧
    (configChanged st.cfg new_cfg = false →
      WebHookPlugin.load_config st new_cfg new_tx send_exit_old =
        ({ cfg := new_cfg, tx := st.tx }, none)) := by
  refine ⟨?_, ?_, ?_⟩
  · intro e hc he
    subst he
    simp [WebHookPlugin.load_config, hc]
  · intro hc he
    subst he
    simp [WebHookPlugin.load_config, hc]
  · intro hc
    simp [WebHookPlugin.load_config, hc]

/-- Witness for Claim C6: a changed config with a failed and a successful
Exit send, and an unchanged condition. -/
theorem webhook_load_config_spec_witness :
    WebHookPlugin.load_config ⟨⟨1, 100, 5, []⟩, 0⟩ ⟨2, 100, 5, []⟩ 1
        (.error "timeout") = (⟨⟨1, 100, 5, []⟩, 0⟩, some "timeout") ∧
    WebHookPlugin.load_config ⟨⟨1, 100, 5, []⟩, 0⟩ ⟨2, 100, 5, []⟩ 1 (.ok ()) =
      (⟨⟨2, 100, 5, []⟩, 1⟩, none) ∧
    WebHookPlugin.load_config ⟨⟨1, 100, 5, []⟩, 0⟩ ⟨1, 100, 5, ["u"]⟩ 1 (.ok ()) =
      (⟨⟨1, 100, 5, ["u"]⟩, 0⟩, none) :=
  ⟨(webhook_load_config_spec _ _ _ _).1 "timeout" (by decide) rfl,
   (webhook_load_config_spec _ _ _ _).2.1 (by decide) rfl,
   (webhook_load_config_spec _ _ _ _).2.2 (by decide)⟩

/-- Claim C9: `ClusterPlugin::raft_mailbox` hits the `unreachable!()` panic
(modelled as `none`) exactly while the `raft_mailbox` field is still `None`
— in particular on the state `new` constructs — and once `init` has stored
the mailbox it always returns a mailbox clone without panicking, so the
callers that run after `init` are panic-free. -/
theorem raft_mailbox_panic_boundary :
    ClusterPlugin.raft_mailbox_get ClusterPlugin.new_state = none ∧
    (∀ (st : ClusterPluginState) (mb : Mailbox),
      ClusterPlugin.raft_mailbox_get (ClusterPlugin.init st mb) = some mb) ∧
    (∀ st : ClusterPluginState, st.raft_mailbox.isSome = true →
      (ClusterPlugin.raft_mailbox_get st).isSome = true) := by
  refine ⟨rfl, fun st mb => rfl, ?_⟩
  intro st h
  match hst : st.raft_mailbox with
  | some mb => simp [ClusterPlugin.raft_mailbox_get, hst]
  | none => rw [hst] at h; simp at h

/-- Witness for Claim C9: the fresh state panics, the initialized one does
not. -/
theorem raft_mailbox_panic_boundary_witness :
    ClusterPlugin.raft_mailbox_get ClusterPlugin.new_state = none ∧
    ClusterPlugin.raft_mailbox_get
        (ClusterPlugin.init ClusterPlugin.new_state ⟨3⟩) = some ⟨3⟩ ∧
    (ClusterPlugin.raft_mailbox_get ⟨some ⟨3⟩⟩).isSome = true :=
  ⟨raft_mailbox_panic_boundary.1,
   raft_mailbox_panic_boundary.2.1 ClusterPlugin.new_state ⟨3⟩,
   raft_mailbox_panic_boundary.2.2 ⟨some ⟨3⟩⟩ (by decide)⟩
